import Mathlib

/-!
Shallow embedding of the tcg-cardgen template-resolution and rendering core
(Go sources: internal/templates/template.go, internal/renderer/renderer.go,
internal/renderer/variables.go, pkg/renderer, and the pkg renderer utility
files).  Go strings are modelled as Lean `String` / `List Char`; Go maps are
modelled as association lists (Go map iteration order is unspecified; the
embedding fixes insertion order, which none of the proved properties depend
on).  File-system reads, YAML decoding, PNG output and the 2-D drawing
library are external collaborators and are modelled as function parameters
respectively as abstract draw events.
-/

namespace Cardgen

/-- Short helper building a `String` back from its character list. -/
def mkS (l : List Char) : String := ⟨l⟩

/-- Whitespace test backing Go strings.TrimSpace (ASCII subset; every input
exercised here is ASCII). -/
def isSpaceGo (c : Char) : Bool :=
  c = ' ' || c = '\t' || c = '\n' || c = '\r' || c = '\x0b' || c = '\x0c'

/-- Leading-whitespace trim on character lists. -/
def trimLeftGo (l : List Char) : List Char := l.dropWhile isSpaceGo

/-- Trailing-whitespace trim on character lists. -/
def trimRightGo (l : List Char) : List Char := (l.reverse.dropWhile isSpaceGo).reverse

/-- Embedding of Go strings.TrimSpace. -/
def trimGo (l : List Char) : List Char := trimRightGo (trimLeftGo l)

/-- Does `s` start with the pattern `pat` (Go strings.HasPrefix)? -/
def startsWithL : List Char → List Char → Bool
  | [], _ => true
  | _ :: _, [] => false
  | p :: ps, c :: cs => p = c && startsWithL ps cs

/-- Index of the first occurrence of `pat` in `s`, if any (Go strings.Index
for a found pattern). -/
def indexOfL (pat : List Char) : List Char → Option Nat
  | [] => if startsWithL pat [] then some 0 else none
  | c :: cs =>
    if startsWithL pat (c :: cs) then some 0 else (indexOfL pat cs).map (· + 1)

/-- Go strings.Index: index of the first occurrence, or -1. -/
def indexOfI (pat s : List Char) : Int :=
  match indexOfL pat s with
  | some n => (n : Int)
  | none => -1

/-- Fuel-indexed worker for `replaceAllGo`; the fuel equals the input length,
which suffices because every step consumes at least one character. -/
def replaceAllAux : Nat → List Char → List Char → List Char → List Char
  | 0, _, _, s => s
  | fuel + 1, pat, rep, s =>
    match s with
    | [] => []
    | c :: cs =>
      if startsWithL pat s then rep ++ replaceAllAux fuel pat rep (s.drop pat.length)
      else c :: replaceAllAux fuel pat rep cs

/-- Embedding of Go strings.ReplaceAll (leftmost, non-overlapping).  The
empty-pattern behaviour of Go (interleaving the replacement everywhere) is
not modelled; no call site uses an empty pattern. -/
def replaceAllGo (pat rep s : List Char) : List Char :=
  if pat = [] then s else replaceAllAux s.length pat rep s

/-- Prepend a character to the first segment of a split result. -/
def consHeadL (c : Char) : List (List Char) → List (List Char)
  | [] => [[c]]
  | l :: ls => (c :: l) :: ls

/-- Fuel-indexed worker for `splitOnGo`. -/
def splitOnAux : Nat → List Char → List Char → List (List Char)
  | 0, _, s => [s]
  | fuel + 1, pat, s =>
    if startsWithL pat s then [] :: splitOnAux fuel pat (s.drop pat.length)
    else
      match s with
      | [] => [[]]
      | c :: cs => consHeadL c (splitOnAux fuel pat cs)

/-- Embedding of Go strings.Split for a non-empty separator (Split of the
empty string yields the one-element list holding the empty string, exactly as
in Go). -/
def splitOnGo (pat s : List Char) : List (List Char) :=
  if pat = [] then [s] else splitOnAux s.length pat s

/-- Embedding of Go strings.ToLower (ASCII subset). -/
def toLowerGo (l : List Char) : List Char := l.map Char.toLower

/-- First-match association-list lookup, modelling Go map indexing. -/
def lookupKV {α : Type} : List (String × α) → String → Option α
  | [], _ => none
  | (k', v) :: rest, k => if k' = k then some v else lookupKV rest k

/-- Association-list insertion with in-place replacement, modelling Go map
assignment. -/
def mapInsert {α : Type} : List (String × α) → String → α → List (String × α)
  | [], k, v => [(k, v)]
  | (k', v') :: rest, k, v =>
    if k' = k then (k, v) :: rest else (k', v') :: mapInsert rest k v

/-- Character-list form of the literal substring "{{". -/
def openBB : List Char := ['{', '{']

/-- Character-list form of the literal substring "}}". -/
def closeBB : List Char := ['}', '}']

/-- Character-list form of the condition separator "&&". -/
def andSep : List Char := ['&', '&']

/-- Character-list form of the newline separator used by the line splitters. -/
def newlineL : List Char := ['\n']

/-- Flattened variable namespace: the Go map[string]string carried through the
renderer, modelled as an entry list. -/
abbrev NS : Type := List (String × String)

/-- The "{{key}}" placeholder text of a namespace key. -/
def placeholderOf (key : String) : List Char := openBB ++ key.data ++ closeBB

/-- Embedding of SubstituteVariables (internal/renderer/variables.go and the
pkg renderer utility file): for every namespace entry, replace all
occurrences of its "{{key}}" placeholder by its value.  Go iterates the map
in unspecified order; the embedding folds over the entry list. -/
def substituteVariables (template : String) (vars : NS) : String :=
  mkS (vars.foldl (fun acc kv => replaceAllGo (placeholderOf kv.1) kv.2.data acc) template.data)

/-- Truthiness of one condition operand: the key must exist and its value must
be neither empty nor the literal "null" (EvaluateCondition loop body). -/
def truthyOperand (vars : NS) (k : String) : Bool :=
  match lookupKV vars k with
  | some v => v ≠ "" && v ≠ "null"
  | none => false

/-- The operand list EvaluateCondition derives from a condition string: trim,
strip the brace decoration, split on "&&", trim each part. -/
def conditionOperands (condition : String) : List String :=
  (splitOnGo andSep (replaceAllGo closeBB [] (replaceAllGo openBB [] (trimGo condition.data)))).map
    (fun p => mkS (trimGo p))

/-- Embedding of EvaluateCondition (pkg renderer Utils and
internal/renderer/renderer.go): every operand must be truthy. -/
def evaluateCondition (condition : String) (vars : NS) : Bool :=
  (conditionOperands condition).all (truthyOperand vars)

/-- Drop trailing lines that are blank after trimming (the body clean-up loop
of SeparateFooter). -/
def dropTrailingBlank (lines : List (List Char)) : List (List Char) :=
  (lines.reverse.dropWhile (fun l => trimGo l = [])).reverse

/-- The lowercased footer marker "## footer". -/
def footerMarker : List Char := "## footer".data

/-- Embedding of SeparateFooter (internal/renderer/renderer.go and the pkg
TextProcessor): split on newlines, find the first line whose trimmed
lowercase form is "## footer", return the part before it with trailing blank
lines removed and the part after it with leading blank lines removed. -/
def separateFooter (content : String) : String × String :=
  let lines := splitOnGo newlineL content.data
  match lines.findIdx? (fun l => trimGo (toLowerGo l) = footerMarker) with
  | none => (content, "")
  | some i =>
    let bodyLines := dropTrailingBlank (lines.take i)
    let footerLines := (lines.drop (i + 1)).dropWhile (fun l => trimGo l = [])
    (mkS (List.intercalate newlineL bodyLines), mkS (List.intercalate newlineL footerLines))

/-- Embedding of StripMarkdownHeaders: drop every line whose trimmed form
starts with a number sign. -/
def stripMarkdownHeaders (content : String) : String :=
  mkS (List.intercalate newlineL
    ((splitOnGo newlineL content.data).filter (fun l => !startsWithL ['#'] (trimGo l))))

/-- A run of `n` asterisks, the markers of the inline formatter. -/
def starMarker (n : Nat) : List Char := List.replicate n '*'

/-- One styled run produced by the inline formatter.  The Go FormattedText
also carries a Size and Color that parseFormattingRecursive always leaves at
their zero values; they are omitted (floating point). -/
structure FormattedText where
  content : String
  bold : Bool
  italic : Bool
deriving DecidableEq

/-- One classified line produced by ProcessMarkdown (type is "normal",
"header" or "hr"; level is the header level). -/
structure FormattedLine where
  segments : List FormattedText
  type : String
  level : Nat
deriving DecidableEq

/-- Fuel-indexed embedding of parseFormattingRecursive (pkg TextProcessor and
internal/renderer/renderer.go): leftmost marker search with *** over ** over
* priority, plain-text fallback for an unmatched opening marker, recursion on
the remainder after a closing marker.  The fuel is the text length plus one,
which suffices because every recursive call drops at least two marker
characters. -/
def parseFmtAux : Nat → List Char → List FormattedText
  | 0, _ => []
  | fuel + 1, text =>
    let i3 := indexOfI (starMarker 3) text
    let pm1 : Int × Nat := if i3 ≠ -1 then (i3, 3) else (-1, 0)
    let i2 := indexOfI (starMarker 2) text
    let pm2 : Int × Nat :=
      if (pm1.1 = -1 ∨ pm1.1 > i2) ∧ i2 ≠ -1 then (i2, 2) else pm1
    let i1 := indexOfI (starMarker 1) text
    let pm3 : Int × Nat :=
      if (pm2.1 = -1 ∨ pm2.1 > i1) ∧ i1 ≠ -1 then (i1, 1) else pm2
    if pm3.1 = -1 then
      if text ≠ [] then [⟨mkS text, false, false⟩] else []
    else
      let pos := pm3.1.toNat
      let mlen := pm3.2
      let pre : List FormattedText :=
        if pos > 0 then [⟨mkS (text.take pos), false, false⟩] else []
      let remaining := text.drop (pos + mlen)
      let ci := indexOfI (starMarker mlen) remaining
      if ci = -1 then pre ++ [⟨mkS (text.drop pos), false, false⟩]
      else
        let sty : Bool × Bool :=
          if mlen = 3 then (true, true) else if mlen = 2 then (true, false) else (false, true)
        let after := remaining.drop (ci.toNat + mlen)
        pre ++ [⟨mkS (remaining.take ci.toNat), sty.1, sty.2⟩]
          ++ (if after ≠ [] then parseFmtAux fuel after else [])

/-- Embedding of parseInlineFormatting / parseFormattingRecursive on a whole
string. -/
def parseFormattingRecursive (text : String) : List FormattedText :=
  parseFmtAux (text.data.length + 1) text.data

/-- Worker of the ProcessMarkdown header scan: count leading number signs,
truncate after a following space, reset to zero on any other character, and
keep the line unchanged when it consists solely of number signs. -/
def headerScanAux (orig : List Char) : List Char → Nat → Nat × List Char
  | [], lvl => (lvl, orig)
  | c :: rest, lvl =>
    if c = '#' then headerScanAux orig rest (lvl + 1)
    else if c = ' ' then (lvl, rest)
    else (0, orig)

/-- The header-level scan of ProcessMarkdown. -/
def headerScan (l : List Char) : Nat × List Char := headerScanAux l l 0

/-- Classification of one (already split) line by ProcessMarkdown. -/
def procMarkdownLine (l : List Char) : FormattedLine :=
  let line := trimGo l
  if line = [] then ⟨[], "normal", 0⟩
  else if startsWithL "---".data line || startsWithL (starMarker 3) line then ⟨[], "hr", 0⟩
  else if startsWithL ['#'] line then
    let lv := headerScan line
    if 0 < lv.1 ∧ lv.1 ≤ 6 then ⟨parseFmtAux (lv.2.length + 1) lv.2, "header", lv.1⟩
    else ⟨parseFmtAux (lv.2.length + 1) lv.2, "normal", 0⟩
  else ⟨parseFmtAux (line.length + 1) line, "normal", 0⟩

/-- Embedding of ProcessMarkdown: split on newlines and classify each line. -/
def processMarkdown (content : String) : List FormattedLine :=
  (splitOnGo newlineL content.data).map procMarkdownLine

/-- Scalar slice of a Go interface value as stored in YAML maps.  Floats and
deeper structures are collapsed to `lother`, which is non-nil; none of the
proved properties inspects them further. -/
inductive MetaLeaf where
  | lstr (s : String)
  | lint (n : Int)
  | lnil
  | lother
deriving DecidableEq

/-- A metadata value: either a scalar or a one-level nested map, matching the
one-level nesting the Go code reads from card metadata and override maps. -/
inductive MetaVal where
  | leaf (v : MetaLeaf)
  | vmap (m : List (String × MetaLeaf))
deriving DecidableEq

/-- Region of a layer (template.go). -/
structure Region where
  x : Int := 0
  y : Int := 0
  width : Int := 0
  height : Int := 0
deriving DecidableEq

/-- Font of a text layer (template.go); Size is a Go interface value. -/
structure Font where
  family : String := ""
  size : MetaVal := MetaVal.leaf MetaLeaf.lnil
  weight : String := ""
  style : String := ""
  color : String := ""
deriving DecidableEq

/-- Layer of a template (template.go). -/
structure Layer where
  name : String := ""
  role : String := ""
  type : String := ""
  source : String := ""
  content : String := ""
  region : Region := {}
  font : Option Font := none
  fitMode : String := ""
  iconReplace : Bool := false
  stripHeaders : Bool := false
  condition : String := ""
  align : String := ""
  fallback : String := ""
deriving DecidableEq

/-- LayerOverride of a template (template.go): a target layer name and the
inline update map. -/
structure LayerOverride where
  layer : String := ""
  updates : List (String × MetaVal) := []
deriving DecidableEq

/-- Dimensions of a template (template.go). -/
structure Dimensions where
  width : Int := 0
  height : Int := 0
  dpi : Int := 0
deriving DecidableEq

/-- Conditional-include entry of a template (template.go); declared but not
processed by the verified fragment, kept for structural fidelity. -/
structure TemplateCondition where
  ifExpr : String := ""
  includeFile : String := ""
deriving DecidableEq

/-- Template (template.go).  The runtime BaseTemplate back-pointer that
mergeTemplates sets and nothing in the verified fragment reads is omitted to
keep the structure non-recursive; extendsPath models the Extends field. -/
structure Template where
  name : String := ""
  tcg : String := ""
  version : String := ""
  description : String := ""
  extendsPath : String := ""
  dimensions : Dimensions := {}
  layers : List Layer := []
  required : List String := []
  optional : List (String × MetaVal) := []
  icons : List (String × String) := []
  styleTokens : List (String × String) := []
  overrides : List LayerOverride := []
  addLayers : List Layer := []
  conditions : List TemplateCondition := []
  templateDir : String := ""
deriving DecidableEq

/-- Embedding of ProcessIconReplacements: replace each icon key placeholder
with a bracketed text placeholder.  The vars parameter mirrors the Go
signature; the body does not use it. -/
def processIconReplacements (content : String) (t : Template) (_vars : NS) : String :=
  mkS (t.icons.foldl
    (fun acc kv => replaceAllGo (placeholderOf kv.1) ("[" ++ kv.1 ++ "]").data acc) content.data)

/-- One key/value update step of applyLayerOverride: only string values for
the keys source, content, condition and fit_mode are applied. -/
def applyUpdateField (l : Layer) (kv : String × MetaVal) : Layer :=
  match kv.1, kv.2 with
  | "source", MetaVal.leaf (MetaLeaf.lstr s) => { l with source := s }
  | "content", MetaVal.leaf (MetaLeaf.lstr s) => { l with content := s }
  | "condition", MetaVal.leaf (MetaLeaf.lstr s) => { l with condition := s }
  | "fit_mode", MetaVal.leaf (MetaLeaf.lstr s) => { l with fitMode := s }
  | _, _ => l

/-- Embedding of applyLayerOverride (template.go): fold the update map over
the layer.  Go iterates the map in unspecified order; the updated fields are
disjoint per key, so the order cannot matter. -/
def applyLayerOverride (l : Layer) (o : LayerOverride) : Layer :=
  o.updates.foldl applyUpdateField l

/-- Deduplication keeping first occurrences, modelling the required-field set
union (Go iterates the union map in unspecified order; the embedding fixes
base-then-extended insertion order). -/
def dedupAux : List String → List String → List String
  | _, [] => []
  | seen, s :: rest =>
    if seen.contains s then dedupAux seen rest else s :: dedupAux (s :: seen) rest

/-- Set union of the required lists as an ordered list. -/
def dedupKeepFirst (l : List String) : List String := dedupAux [] l

/-- Key-wise map merge with the extended entries winning and base entries
filling gaps (optional fields, style tokens, icons in mergeTemplates). -/
def mergeKV {α : Type} (extd base : List (String × α)) : List (String × α) :=
  extd ++ base.filter (fun kv => (lookupKV extd kv.1).isNone)

/-- The last layer of a given name in a list, mirroring what repeated Go map
assignment keyed by layer name retains. -/
def lastNamed : List Layer → String → Option Layer
  | [], _ => none
  | l :: rest, k =>
    match lastNamed rest k with
    | some x => some x
    | none => if l.name = k then some l else none

/-- The baseLayers map of mergeTemplates: every base layer keyed by name. -/
def buildBaseLayerMap (layers : List Layer) : List (String × Layer) :=
  layers.foldl (fun m l => mapInsert m l.name l) []

/-- The override pass of mergeTemplates: each override entry whose target
name is present in the map rewrites that entry. -/
def applyOverridesToMap (m : List (String × Layer)) (ovs : List LayerOverride) :
    List (String × Layer) :=
  ovs.foldl (fun acc o =>
    match lookupKV acc o.layer with
    | some bl => mapInsert acc o.layer (applyLayerOverride bl o)
    | none => acc) m

/-- Embedding of mergeTemplates (template.go). -/
def mergeTemplates (base extended : Template) : Template :=
  let dims := if extended.dimensions.width = 0 then base.dimensions else extended.dimensions
  let req := dedupKeepFirst (base.required ++ extended.required)
  let opt := mergeKV extended.optional base.optional
  let tok := mergeKV extended.styleTokens base.styleTokens
  let ico := mergeKV extended.icons base.icons
  let overridden := applyOverridesToMap (buildBaseLayerMap base.layers) extended.overrides
  let finalBase := base.layers.foldl (fun acc l =>
    match lookupKV overridden l.name with
    | some ml => acc ++ [ml]
    | none => acc) []
  let layerNames := base.layers.map Layer.name
  let extLayers := extended.layers.filter (fun l => !layerNames.contains l.name)
  { extended with
    dimensions := dims
    required := req
    optional := opt
    styleTokens := tok
    icons := ico
    layers := finalBase ++ extLayers ++ extended.addLayers }

/-- Claim-side description of the per-layer override application: every
override entry matching the layer by name is applied in declared order. -/
def applyMatchingOverrides (ovs : List LayerOverride) (l : Layer) : Layer :=
  ovs.foldl (fun acc o => if o.layer = acc.name then applyLayerOverride acc o else acc) l

/-- Card (internal/metadata/parser.go): typed fields plus the raw metadata
bag. -/
structure Card where
  tcg : String := ""
  cardStyle : String := ""
  title : String := ""
  type : String := ""
  rarity : String := ""
  set : String := ""
  artist : String := ""
  printThis : Int := 0
  printTotal : Int := 0
  body : String := ""
  rulesText : String := ""
  flavorText : String := ""
  manaCost : String := ""
  metadata : List (String × MetaVal) := []
deriving DecidableEq

/-- Embedding of hasNestedField (template.go): the section must be a nested
map; a string value must be non-empty, any other value must be non-nil. -/
def hasNestedField (card : Card) (sect fieldName : String) : Bool :=
  match lookupKV card.metadata sect with
  | some (MetaVal.vmap m) =>
    match lookupKV m fieldName with
    | some (MetaLeaf.lstr s) => s ≠ ""
    | some MetaLeaf.lnil => false
    | some _ => true
    | none => false
  | _ => false

/-- Embedding of hasField (template.go): typed fields check the Card field or
the nested bag; any other path checks flat key existence first and then a
dotted two-segment nested lookup. -/
def hasField (card : Card) (fieldName : String) : Bool :=
  match fieldName with
  | "card.tcg" => card.tcg ≠ "" || hasNestedField card "card" "tcg"
  | "card.cardstyle" => card.cardStyle ≠ "" || hasNestedField card "card" "cardstyle"
  | "card.title" => card.title ≠ "" || hasNestedField card "card" "title"
  | "card.type" => card.type ≠ "" || hasNestedField card "card" "type"
  | "card.rarity" => card.rarity ≠ "" || hasNestedField card "card" "rarity"
  | "card.set" => card.set ≠ "" || hasNestedField card "card" "set"
  | "card.artist" => card.artist ≠ "" || hasNestedField card "card" "artist"
  | f =>
    if (lookupKV card.metadata f).isSome then true
    else
      match splitOnGo ['.'] f.data with
      | [sect, fld] => hasNestedField card (mkS sect) (mkS fld)
      | _ => false

/-- The TCG-mismatch message of ValidateCard. -/
def tcgMismatchMsg (c t : String) : String :=
  "card TCG \x27" ++ c ++ "\x27 doesn\x27t match template TCG \x27" ++ t ++ "\x27"

/-- The missing-required-field message of ValidateCard. -/
def missingFieldMsg (f : String) : String :=
  "required field \x27" ++ f ++ "\x27 is missing"

/-- The extended TCG-mismatch message of the (unreachable) second check of
ValidateCard. -/
def tcgMismatchMsg2 (c t : String) : String :=
  tcgMismatchMsg c t ++ " - use a " ++ c ++ " cardstyle for " ++ c ++ " cards"

/-- The required-field loop of ValidateCard: first missing field errors. -/
def checkRequiredFields (card : Card) : List String → Except String Unit
  | [] => Except.ok ()
  | f :: rest =>
    if hasField card f then checkRequiredFields card rest
    else Except.error (missingFieldMsg f)

/-- Embedding of ValidateCard (template.go). -/
def validateCard (card : Card) (t : Template) : Except String Unit :=
  if card.tcg ≠ t.tcg then Except.error (tcgMismatchMsg card.tcg t.tcg)
  else
    match checkRequiredFields card t.required with
    | Except.error e => Except.error e
    | Except.ok _ =>
      if t.required.contains "card.tcg" ∧ card.tcg ≠ t.tcg then
        Except.error (tcgMismatchMsg2 card.tcg t.tcg)
      else Except.ok ()

/-- The typed Card field selected by a path, if the path names one. -/
def typedFieldGet : String → Option (Card → String)
  | "card.tcg" => some Card.tcg
  | "card.cardstyle" => some Card.cardStyle
  | "card.title" => some Card.title
  | "card.type" => some Card.type
  | "card.rarity" => some Card.rarity
  | "card.set" => some Card.set
  | "card.artist" => some Card.artist
  | _ => none

/-- Dotted two-segment nested lookup used by the specification-side
predicates. -/
def twoSegNested (card : Card) (f : String) : Bool :=
  match splitOnGo ['.'] f.data with
  | [sect, fld] => hasNestedField card (mkS sect) (mkS fld)
  | _ => false

/-- Specification-side resolution predicate in the amended reading of the
validation contract: a typed field resolves when non-empty (or via the nested
bag); any other path resolves as soon as the flat key exists, or via a
non-empty nested two-segment lookup. -/
def fieldResolvesAmended (card : Card) (f : String) : Bool :=
  match typedFieldGet f with
  | some get => get card ≠ "" || twoSegNested card f
  | none => (lookupKV card.metadata f).isSome || twoSegNested card f

/-- Non-emptiness of a metadata value, as the original validation-contract
wording demands. -/
def mvNonEmpty : MetaVal → Bool
  | MetaVal.leaf (MetaLeaf.lstr s) => s ≠ ""
  | MetaVal.leaf MetaLeaf.lnil => false
  | MetaVal.leaf _ => true
  | MetaVal.vmap _ => true

/-- Specification-side resolution predicate in the ORIGINAL claim wording:
every lookup, including the flat metadata lookup, must produce a non-empty
value. -/
def fieldResolvesOriginal (card : Card) (f : String) : Bool :=
  match typedFieldGet f with
  | some get => get card ≠ "" || twoSegNested card f
  | none =>
    (match lookupKV card.metadata f with
     | some v => mvNonEmpty v
     | none => false) || twoSegNested card f

/-- Draw calls issued to the 2-D graphics collaborator during a card render.
Raster images are opaque handles; the formatted-text drawing pass is an
external collaborator and is recorded as one event carrying its inputs. -/
inductive DrawEvent where
  | clearWhite
  | imageAnchored (img : Nat) (cx cy : Int)
  | placeholder (region : Region) (caption : String)
  | drawText (lines : List FormattedLine) (region : Region) (align : String)
deriving DecidableEq

/-- Worker of `baseName` collecting the characters after the last slash. -/
def lastPathSegAux : List Char → List Char → List Char
  | acc, [] => acc
  | acc, c :: rest =>
    if c = '/' then lastPathSegAux [] rest else lastPathSegAux (acc ++ [c]) rest

/-- Embedding of filepath.Base: last path element with trailing slashes
removed; "." for the empty path and "/" for an all-slash path. -/
def baseName (p : String) : String :=
  if p = "" then "."
  else
    let t := (p.data.reverse.dropWhile (· = '/')).reverse
    if t = [] then "/" else mkS (lastPathSegAux [] t)

/-- Embedding of renderImageLayer (internal/renderer/renderer.go).  The image
loader (file system, remote fetch, decode, cache) is the collaborator
`files`; a `none` result is a load failure. -/
def renderImageLayer (files : String → Option Nat) (l : Layer) (vars : NS) :
    Except String (List DrawEvent) :=
  let sourcePath := substituteVariables l.source vars
  let imagePath :=
    if sourcePath = "" then
      (if l.fallback ≠ "" then substituteVariables l.fallback vars else sourcePath)
    else sourcePath
  if imagePath = "" then Except.error ("no image source for layer " ++ l.name)
  else
    match files imagePath with
    | some img =>
      Except.ok [DrawEvent.imageAnchored img (l.region.x + l.region.width / 2)
        (l.region.y + l.region.height / 2)]
    | none =>
      let retry :=
        if l.fallback ≠ "" ∧ imagePath ≠ substituteVariables l.fallback vars then
          files (substituteVariables l.fallback vars)
        else none
      match retry with
      | some img =>
        Except.ok [DrawEvent.imageAnchored img (l.region.x + l.region.width / 2)
          (l.region.y + l.region.height / 2)]
      | none =>
        Except.ok [DrawEvent.placeholder l.region ("Missing: " ++ baseName imagePath)]

/-- Embedding of renderTextLayer (internal/renderer/renderer.go): substitute,
skip empty content, optionally strip headers and replace icons, parse the
markdown, and hand the lines to the drawing collaborator. -/
def renderTextLayer (t : Template) (l : Layer) (vars : NS) :
    Except String (List DrawEvent) :=
  let content := substituteVariables l.content vars
  if content = "" then Except.ok []
  else
    let content1 := if l.stripHeaders then stripMarkdownHeaders content else content
    let content2 := if l.iconReplace then processIconReplacements content1 t vars else content1
    Except.ok [DrawEvent.drawText (processMarkdown content2) l.region l.align]

/-- Embedding of renderLayer (internal/renderer/renderer.go): the condition
gate, then dispatch on the layer type. -/
def renderLayer (files : String → Option Nat) (t : Template) (l : Layer) (vars : NS) :
    Except String (List DrawEvent) :=
  if l.condition ≠ "" ∧ evaluateCondition l.condition vars = false then Except.ok []
  else
    match l.type with
    | "image" => renderImageLayer files l vars
    | "text" => renderTextLayer t l vars
    | other => Except.error ("unknown layer type: " ++ other)

/-- The per-layer loop of RenderCard, wrapping a layer failure with the layer
name. -/
def renderLayersAux (files : String → Option Nat) (t : Template) (vars : NS) :
    List Layer → List DrawEvent → Except String (List DrawEvent)
  | [], acc => Except.ok acc
  | l :: rest, acc =>
    match renderLayer files t l vars with
    | Except.error e =>
      Except.error ("error rendering layer \x27" ++ l.name ++ "\x27: " ++ e)
    | Except.ok evs => renderLayersAux files t vars rest (acc ++ evs)

/-- Embedding of RenderCard (internal/renderer/renderer.go): clear to white,
then walk the layer list in order.  The variable namespace built by
buildTemplateVariables is passed in (its float formatting is a collaborator
boundary), and the final PNG save is a collaborator. -/
def renderCard (files : String → Option Nat) (t : Template) (vars : NS) :
    Except String (List DrawEvent) :=
  renderLayersAux files t vars t.layers [DrawEvent.clearWhite]

/-- The events a successfully rendered layer contributes (empty on error). -/
def layerEvents (files : String → Option Nat) (t : Template) (vars : NS) (l : Layer) :
    List DrawEvent :=
  match renderLayer files t l vars with
  | Except.ok evs => evs
  | Except.error _ => []

/-- Success test on an Except result. -/
def isOkE {ε α : Type} : Except ε α → Bool
  | Except.ok _ => true
  | Except.error _ => false

/-- Axis-aligned rectangle covered by the source image inside the fitted
canvas, in exact rational coordinates.  Rationals idealize float64; the
stretch and center branches perform no division, so they are exact. -/
structure DrawnRect where
  x : ℚ
  y : ℚ
  w : ℚ
  h : ℚ
deriving DecidableEq

/-- Go float-to-int conversion: truncation toward zero. -/
def truncQ (q : ℚ) : Int := if q < 0 then -((-q).floor) else q.floor

/-- The fill branch of CreateFittedImage (pkg/renderer image processor):
uniform scale by the larger axis ratio, centered. -/
def fittedFillRect (imgW imgH : ℚ) (region : Region) : DrawnRect :=
  let rw : ℚ := (region.width : ℚ)
  let rh : ℚ := (region.height : ℚ)
  let scaleX := rw / imgW
  let scaleY := rh / imgH
  let scale := if scaleY > scaleX then scaleY else scaleX
  let drawX := (rw - imgW * scale) / 2
  let drawY := (rh - imgH * scale) / 2
  let ax := truncQ (drawX / scale + imgW / 2)
  let ay := truncQ (drawY / scale + imgH / 2)
  ⟨scale * ((ax : ℚ) - imgW / 2), scale * ((ay : ℚ) - imgH / 2), scale * imgW, scale * imgH⟩

/-- The fit branch of CreateFittedImage: uniform scale by the smaller axis
ratio, centered. -/
def fittedFitRect (imgW imgH : ℚ) (region : Region) : DrawnRect :=
  let rw : ℚ := (region.width : ℚ)
  let rh : ℚ := (region.height : ℚ)
  let scaleX := rw / imgW
  let scaleY := rh / imgH
  let scale := if scaleY < scaleX then scaleY else scaleX
  let drawX := (rw - imgW * scale) / 2
  let drawY := (rh - imgH * scale) / 2
  let ax := truncQ (drawX / scale + imgW / 2)
  let ay := truncQ (drawY / scale + imgH / 2)
  ⟨scale * ((ax : ℚ) - imgW / 2), scale * ((ay : ℚ) - imgH / 2), scale * imgW, scale * imgH⟩

/-- The stretch branch of CreateFittedImage as written in the source: a
single DrawImageAnchored at the region center with no scaling, so the drawn
rectangle keeps the native image size.  The anchor coordinates use Go integer
division; every exercised region has non-negative dimensions. -/
def fittedStretchRect (imgW imgH : ℚ) (region : Region) : DrawnRect :=
  ⟨((region.width / 2 : Int) : ℚ) - imgW / 2,
   ((region.height / 2 : Int) : ℚ) - imgH / 2, imgW, imgH⟩

/-- The center branch of CreateFittedImage: no scaling, centered. -/
def fittedCenterRect (imgW imgH : ℚ) (region : Region) : DrawnRect :=
  let rw : ℚ := (region.width : ℚ)
  let rh : ℚ := (region.height : ℚ)
  let ax := truncQ ((rw - imgW) / 2 + imgW / 2)
  let ay := truncQ ((rh - imgH) / 2 + imgH / 2)
  ⟨(ax : ℚ) - imgW / 2, (ay : ℚ) - imgH / 2, imgW, imgH⟩

/-- Embedding of the CreateFittedImage switch: the geometry of the drawn
source image per fit mode, with an unknown mode falling back to fill. -/
def createFittedRect (imgW imgH : ℚ) (region : Region) (fitMode : String) : DrawnRect :=
  match fitMode with
  | "fill" => fittedFillRect imgW imgH region
  | "fit" => fittedFitRect imgW imgH region
  | "stretch" => fittedStretchRect imgW imgH region
  | "center" => fittedCenterRect imgW imgH region
  | _ => fittedFillRect imgW imgH region

/-- Embedding of filepath.IsAbs for slash paths. -/
def isAbsPath (p : String) : Bool :=
  match p.data with
  | [] => false
  | c :: _ => c = '/'

/-- Embedding of filepath.Join for two elements.  Go additionally cleans the
result; cleaning is not modelled and no proved property depends on it. -/
def joinPath (a b : String) : String :=
  if a = "" then b else if b = "" then a else a ++ "/" ++ b

/-- Embedding of filepath.Dir: everything before the last slash, "." when
there is no slash and "/" for the root. -/
def dirName (p : String) : String :=
  let r := p.data.reverse.dropWhile (· ≠ '/')
  let r2 := r.dropWhile (· = '/')
  if r2 = [] then (if r = [] then "." else "/") else mkS r2.reverse

/-- Embedding of loadTemplateFile (template.go): read and decode the file
(the collaborator `env`), recording the containing directory.  A `none`
result is a read or decode failure. -/
def loadTemplateFile (env : String → Option Template) (filePath : String) : Option Template :=
  (env filePath).map (fun t => { t with templateDir := dirName filePath })

/-- Embedding of the path resolution in resolveBaseTemplate (template.go). -/
def resolveBasePath (extendsPath currentDir : String) : String :=
  if isAbsPath extendsPath then extendsPath else joinPath currentDir extendsPath

/-- Fuel-indexed embedding of loadAndProcessTemplate together with
resolveBaseTemplate (template.go).  The Go pair recurses with no bound of any
kind; the fuel only makes the recursion definable, and a `none` result means
the computation did not complete within the given fuel. -/
def loadAndProcessTemplate (env : String → Option Template) :
    Nat → String → Option (Except String Template)
  | 0, _ => none
  | fuel + 1, filePath =>
    match loadTemplateFile env filePath with
    | none => some (Except.error ("cannot read template file " ++ filePath))
    | some t =>
      if t.extendsPath ≠ "" then
        match loadAndProcessTemplate env fuel (resolveBasePath t.extendsPath t.templateDir) with
        | none => none
        | some (Except.error e) =>
          some (Except.error ("failed to load base template \x27" ++ t.extendsPath ++ "\x27: " ++ e))
        | some (Except.ok base) => some (Except.ok (mergeTemplates base t))
      else some (Except.ok t)

/-- A template that extends itself through an absolute path. -/
def cyclicTemplate : Template := { name := "a", tcg := "t", extendsPath := "/t/a.yaml" }

/-- A file system holding only the self-extending template. -/
def cyclicEnv : String → Option Template :=
  fun p => if p = "/t/a.yaml" then some cyclicTemplate else none

/-- Workspace-tier candidate path of findAndLoadTemplate. -/
def workspacePath (tcg cardstyle : String) : String :=
  joinPath "templates" (joinPath tcg (cardstyle ++ ".yaml"))

/-- User-cardstyle-tier candidate path of findAndLoadTemplate. -/
def userTcgPath (customCardstyleDir tcg cardstyle : String) : String :=
  joinPath customCardstyleDir (joinPath tcg (cardstyle ++ ".yaml"))

/-- User-root-tier candidate path of findAndLoadTemplate. -/
def userRootPath (customCardstyleDir cardstyle : String) : String :=
  joinPath customCardstyleDir (cardstyle ++ ".yaml")

/-- Legacy-tier candidate path of findAndLoadTemplate. -/
def legacyPath (customTemplateDir tcg cardstyle : String) : String :=
  joinPath customTemplateDir (joinPath tcg (cardstyle ++ ".yaml"))

/-- Embedding of findAndLoadTemplate (template.go).  `load` abstracts
loadAndProcessTemplate on a candidate path and `loadBuiltin` abstracts
loadBuiltinTemplate; both return the loaded, inheritance-resolved template or
an error. -/
def findAndLoadTemplate (load : String → Except String Template)
    (loadBuiltin : String → String → Except String Template)
    (customCardstyleDir customTemplateDir tcg cardstyle : String) :
    Except String Template :=
  let tier4 : Except String Template :=
    if customTemplateDir ≠ "" then
      match load (legacyPath customTemplateDir tcg cardstyle) with
      | Except.ok t => Except.ok t
      | Except.error _ => loadBuiltin tcg cardstyle
    else loadBuiltin tcg cardstyle
  let tier23 : Except String Template :=
    if customCardstyleDir ≠ "" then
      match load (userTcgPath customCardstyleDir tcg cardstyle) with
      | Except.ok t => Except.ok t
      | Except.error _ =>
        match load (userRootPath customCardstyleDir cardstyle) with
        | Except.ok t => if t.tcg = tcg then Except.ok t else tier4
        | Except.error _ => tier4
    else tier4
  match load (workspacePath tcg cardstyle) with
  | Except.ok t => Except.ok t
  | Except.error _ => tier23

/-- Embedding of LoadTemplate (template.go): cache lookup, then the tier
search with its error wrapped to name the tcg/style pair.  The cache insert
on success mutates the manager and is not part of the returned value. -/
def loadTemplate (cache : List (String × Template)) (load : String → Except String Template)
    (loadBuiltin : String → String → Except String Template)
    (customCardstyleDir customTemplateDir tcg cardstyle : String) :
    Except String Template :=
  match lookupKV cache (tcg ++ "/" ++ cardstyle) with
  | some t => Except.ok t
  | none =>
    match findAndLoadTemplate load loadBuiltin customCardstyleDir customTemplateDir tcg cardstyle with
    | Except.error e =>
      Except.error ("cardstyle " ++ tcg ++ "/" ++ cardstyle ++ " not found: " ++ e)
    | Except.ok t => Except.ok t

/-- The successful value of a tier result, if any. -/
def okValue : Except String Template → Option Template
  | Except.ok t => some t
  | Except.error _ => none

/-- Claim-side candidate list of the five search tiers, in priority order: a
tier contributes its template when it is configured, loads successfully and,
for the user-root tier, declares the requested tcg. -/
def tierCandidates (load : String → Except String Template)
    (loadBuiltin : String → String → Except String Template)
    (customCardstyleDir customTemplateDir tcg cardstyle : String) :
    List (Option Template) :=
  [okValue (load (workspacePath tcg cardstyle)),
   if customCardstyleDir ≠ "" then okValue (load (userTcgPath customCardstyleDir tcg cardstyle))
   else none,
   if customCardstyleDir ≠ "" then
     (match load (userRootPath customCardstyleDir cardstyle) with
      | Except.ok t => if t.tcg = tcg then some t else none
      | Except.error _ => none)
   else none,
   if customTemplateDir ≠ "" then okValue (load (legacyPath customTemplateDir tcg cardstyle))
   else none,
   okValue (loadBuiltin tcg cardstyle)]

/-- First present candidate of a priority list. -/
def firstSomeL : List (Option Template) → Option Template
  | [] => none
  | none :: rest => firstSomeL rest
  | some t :: _ => some t

/-- A layer named "a" with content "1", for the duplicate-name analysis. -/
def layerDupA1 : Layer := { name := "a", type := "text", content := "1" }

/-- A second layer also named "a", with content "2". -/
def layerDupA2 : Layer := { name := "a", type := "text", content := "2" }

/-- A base template whose two layers share the name "a". -/
def baseDupTemplate : Template := { name := "base", layers := [layerDupA1, layerDupA2] }

/-- An extending template with no layers, overrides or additions. -/
def extEmptyTemplate : Template := { name := "ext" }

/-- Base image layer for the merge example. -/
def layerW1 : Layer := { name := "art", type := "image", source := "s1" }

/-- Base text layer for the merge example; the extended template repeats this
name, so its copy must not be appended. -/
def layerW2 : Layer := { name := "title", type := "text", content := "t" }

/-- A fresh extended layer for the merge example. -/
def layerW3 : Layer := { name := "extra", type := "text", content := "e" }

/-- An override rewriting the source of the base layer "art". -/
def overrideW : LayerOverride :=
  { layer := "art", updates := [("source", MetaVal.leaf (MetaLeaf.lstr "s2"))] }

/-- Base template of the merge example. -/
def baseWTemplate : Template :=
  { name := "b", dimensions := ⟨100, 140, 72⟩, layers := [layerW1, layerW2] }

/-- Extended template of the merge example: zero width, a colliding and a
fresh layer, one override and one additional layer. -/
def extWTemplate : Template :=
  { name := "e", layers := [layerW2, layerW3], overrides := [overrideW],
    addLayers := [layerW3] }

/-- A card whose metadata key "foo" holds the empty string. -/
def cardCE : Card := { tcg := "mtg", metadata := [("foo", MetaVal.leaf (MetaLeaf.lstr ""))] }

/-- A template requiring the path "foo" for the same tcg. -/
def templateCE : Template := { tcg := "mtg", required := ["foo"] }

/-- A card for the validation witness. -/
def cardW8 : Card := { tcg := "mtg", title := "Bolt" }

/-- A template of a different tcg for the validation witness. -/
def templateW8 : Template := { tcg := "ptcg", required := ["card.title"] }

/-- An image layer whose source path will not load and that declares no
fallback and no condition. -/
def badLayerW : Layer :=
  { name := "artwork", type := "image", source := "art.png", region := ⟨10, 20, 30, 40⟩ }

/-- A template holding only the failing image layer. -/
def templateW9 : Template := { layers := [badLayerW] }

/-- An image loader on which every load fails. -/
def noFiles : String → Option Nat := fun _ => none

lemma indexOfL_none_cons {pat : List Char} {c : Char} {cs : List Char}
    (h : indexOfL pat (c :: cs) = none) :
    startsWithL pat (c :: cs) = false ∧ indexOfL pat cs = none := by
  unfold indexOfL at h
  by_cases hs : startsWithL pat (c :: cs) = true
  · simp [hs] at h
  · refine ⟨by simpa using hs, ?_⟩
    simp [hs] at h
    simpa using h

lemma replaceAllAux_of_indexOf_none (fuel : Nat) (pat rep : List Char) :
    ∀ s : List Char, indexOfL pat s = none → replaceAllAux fuel pat rep s = s := by
  induction fuel with
  | zero => intro s _; rfl
  | succ n ih =>
    intro s h
    match s with
    | [] => rfl
    | c :: cs =>
      obtain ⟨h1, h2⟩ := indexOfL_none_cons h
      simp [replaceAllAux, h1, ih cs h2]

lemma replaceAllGo_of_indexOf_none (pat rep : List Char) (s : List Char)
    (h : indexOfL pat s = none) : replaceAllGo pat rep s = s := by
  unfold replaceAllGo
  by_cases hp : pat = []
  · simp [hp]
  · simp [hp, replaceAllAux_of_indexOf_none _ _ _ _ h]

lemma substFold_id (ns : NS) :
    ∀ l : List Char, (∀ kv ∈ ns, indexOfL (placeholderOf kv.1) l = none) →
      ns.foldl (fun acc kv => replaceAllGo (placeholderOf kv.1) kv.2.data acc) l = l := by
  induction ns with
  | nil => intro l _; rfl
  | cons kv rest ih =>
    intro l h
    have h1 := h kv (List.mem_cons_self kv rest)
    have hstep : replaceAllGo (placeholderOf kv.1) kv.2.data l = l :=
      replaceAllGo_of_indexOf_none _ _ _ h1
    simp only [List.foldl_cons, hstep]
    exact ih l (fun kv2 hkv2 => h kv2 (List.mem_cons_of_mem kv hkv2))

/-- Claim C4 as stated is false: substituting a reference whose path is not a
namespace key does not yield the empty string for that reference; the literal
placeholder text survives in the output. -/
theorem c4_counterexample :
    substituteVariables "\x7b\x7bp\x7d\x7d" [("a", "1")] = "\x7b\x7bp\x7d\x7d" ∧
    ("\x7b\x7bp\x7d\x7d" : String) ≠ "" := by
  constructor
  · decide
  · decide

/-- Claim C4 as amended: substitution replaces only placeholders of keys that
are present in the namespace and never raises an error; any text in which no
namespace key placeholder occurs - in particular a reference whose path is
not a key - is returned verbatim. -/
theorem c4_substitution_unresolved_left_verbatim (text : String) (ns : NS)
    (h : ∀ kv ∈ ns, indexOfL (placeholderOf kv.1) text.data = none) :
    substituteVariables text ns = text := by
  unfold substituteVariables
  rw [substFold_id ns text.data h]
  rfl

/-- Witness for the amended claim C4 at the concrete unresolved reference. -/
theorem c4_substitution_witness :
    (∀ kv ∈ ([("a", "1")] : NS),
        indexOfL (placeholderOf kv.1) ("\x7b\x7bp\x7d\x7d" : String).data = none) ∧
    substituteVariables "\x7b\x7bp\x7d\x7d" [("a", "1")] = "\x7b\x7bp\x7d\x7d" :=
  ⟨by decide, c4_substitution_unresolved_left_verbatim _ _ (by decide)⟩

/-- Claim C3 as stated is false in its blank-condition half: the evaluator
splits the empty condition into the single empty operand, which is looked up
like any other key and fails on a namespace without it. -/
theorem c3_counterexample : evaluateCondition "" [] ≠ true := by decide

/-- Claim C3 as amended: a condition "a && b" is false whenever the
namespace maps b to the empty string, and the blank condition is false for
every namespace without an entry for the empty key (the always-render
behaviour of an absent condition lives in the compositor, which skips
evaluation for empty condition strings). -/
theorem c3_evaluate_condition_amended :
    (∀ ns : NS, lookupKV ns "b" = some "" → evaluateCondition "a && b" ns = false) ∧
    (∀ ns : NS, lookupKV ns "" = none → evaluateCondition "" ns = false) := by
  constructor
  · intro ns h
    unfold evaluateCondition
    rw [show conditionOperands "a && b" = ["a", "b"] from by decide]
    simp [List.all, truthyOperand, h]
  · intro ns h
    unfold evaluateCondition
    rw [show conditionOperands "" = [""] from by decide]
    simp [List.all, truthyOperand, h]

/-- Witness for the amended claim C3 at concrete namespaces. -/
theorem c3_evaluate_condition_witness :
    evaluateCondition "a && b" [("a", "1"), ("b", "")] = false ∧
    evaluateCondition "" [] = false :=
  ⟨c3_evaluate_condition_amended.1 [("a", "1"), ("b", "")] (by decide),
   c3_evaluate_condition_amended.2 [] (by decide)⟩

/-- Claim C5 as stated is false: the footer side keeps its trailing blank
line, so the documented input does not produce the footer "footer1". -/
theorem c5_counterexample :
    (separateFooter "line1\nline2\n## Footer\n\nfooter1\n").2 ≠ "footer1" := by decide

/-- Claim C5 as amended: the split happens on the case-insensitive
"## Footer" marker line, the body is trimmed of trailing blank lines only and
the footer of leading blank lines only, so the documented input yields the
body "line1\nline2" and the footer "footer1\n" with its final newline kept. -/
theorem c5_separate_footer_amended :
    separateFooter "line1\nline2\n## Footer\n\nfooter1\n" = ("line1\nline2", "footer1\n") := by
  decide

/-- Claim C6 as stated is false for the full formatter: a line starting with
three asterisks is classified as a horizontal rule before inline parsing ever
runs, so the documented input parses to a single run-less hr line. -/
theorem c6_counterexample :
    processMarkdown "***x*** and **y** and *z*" =
      [{ segments := [], type := "hr", level := 0 }] := by decide

/-- Claim C6 as amended: the inline-run parser on the documented input yields
exactly the three styled runs interleaved with plain " and " runs, and the
unterminated "**open" parses (also through the full formatter) as one plain
run holding the literal text; but the full formatter classifies the line
starting with "***" as a horizontal rule with no runs. -/
theorem c6_inline_formatting_amended :
    parseFormattingRecursive "***x*** and **y** and *z*" =
      [⟨"x", true, true⟩, ⟨" and ", false, false⟩, ⟨"y", true, false⟩,
       ⟨" and ", false, false⟩, ⟨"z", false, true⟩] ∧
    processMarkdown "**open" =
      [{ segments := [⟨"**open", false, false⟩], type := "normal", level := 0 }] ∧
    processMarkdown "***x*** and **y** and *z*" =
      [{ segments := [], type := "hr", level := 0 }] := by
  refine ⟨by decide, by decide, by decide⟩

/-- Claim C7: the stretch branch of CreateFittedImage never scales - the
drawn rectangle keeps the native image size for every input, and on a 10 by
10 image in a 20 by 30 region its bounding box differs from the region on
both axes, contradicting the documented exact-fill behaviour. -/
theorem c7_stretch_does_not_fill :
    (∀ (imgW imgH : ℚ) (region : Region),
        (createFittedRect imgW imgH region "stretch").w = imgW ∧
        (createFittedRect imgW imgH region "stretch").h = imgH) ∧
    ((createFittedRect 10 10 ⟨0, 0, 20, 30⟩ "stretch").w ≠ 20 ∧
     (createFittedRect 10 10 ⟨0, 0, 20, 30⟩ "stretch").h ≠ 30) := by
  constructor
  · intro imgW imgH region
    exact ⟨rfl, rfl⟩
  · constructor
    · decide
    · decide

lemma cyclic_resolution_step (n : Nat) :
    loadAndProcessTemplate cyclicEnv (n + 1) "/t/a.yaml" =
      (match loadAndProcessTemplate cyclicEnv n "/t/a.yaml" with
       | none => none
       | some (Except.error e) =>
         some (Except.error ("failed to load base template \x27/t/a.yaml\x27: " ++ e))
       | some (Except.ok base) =>
         some (Except.ok (mergeTemplates base { cyclicTemplate with templateDir := "/t" }))) := by
  rfl

/-- Claim C2: the resolver has no depth bound at all.  On the self-extending
template the recursion never completes within any fuel, so it neither
terminates nor returns the cyclic-template error the specification mandates. -/
theorem c2_cyclic_resolution_diverges :
    ∀ fuel : Nat, loadAndProcessTemplate cyclicEnv fuel "/t/a.yaml" = none := by
  intro fuel
  induction fuel with
  | zero => rfl
  | succ n ih => rw [cyclic_resolution_step, ih]

lemma lookupKV_mapInsert {α : Type} (m : List (String × α)) (k : String) (v : α) (k' : String) :
    lookupKV (mapInsert m k v) k' = if k = k' then some v else lookupKV m k' := by
  induction m with
  | nil => simp [mapInsert, lookupKV]
  | cons kv rest ih =>
    obtain ⟨k2, v2⟩ := kv
    by_cases h2 : k2 = k
    · subst h2
      by_cases h3 : k2 = k'
      · subst h3; simp [mapInsert, lookupKV]
      · simp [mapInsert, lookupKV, h3]
    · by_cases h3 : k2 = k'
      · subst h3
        have hkk : ¬ k = k2 := fun h => h2 h.symm
        simp [mapInsert, lookupKV, h2, hkk]
      · simp [mapInsert, lookupKV, h2, h3, ih]

lemma lookupKV_buildBaseLayerMap_fold (ls : List Layer) :
    ∀ (m0 : List (String × Layer)) (k : String),
      lookupKV (ls.foldl (fun m l => mapInsert m l.name l) m0) k =
        (match lastNamed ls k with
         | some x => some x
         | none => lookupKV m0 k) := by
  induction ls with
  | nil => intro m0 k; simp [lastNamed]
  | cons l ls ih =>
    intro m0 k
    simp only [List.foldl_cons]
    rw [ih (mapInsert m0 l.name l) k]
    cases hln : lastNamed ls k with
    | some x => simp [lastNamed, hln]
    | none =>
      simp only [lastNamed, hln]
      rw [lookupKV_mapInsert]
      by_cases h : l.name = k
      · simp [h]
      · simp [h]

lemma lastNamed_eq_none (ls : List Layer) (k : String)
    (h : ∀ x ∈ ls, x.name ≠ k) : lastNamed ls k = none := by
  induction ls with
  | nil => rfl
  | cons l ls ih =>
    have hl := h l (List.mem_cons_self l ls)
    have hrest : lastNamed ls k = none := ih (fun x hx => h x (List.mem_cons_of_mem l hx))
    simp [lastNamed, hrest, hl]

lemma lastNamed_of_nodup (ls : List Layer) (hnd : (ls.map Layer.name).Nodup) :
    ∀ l ∈ ls, lastNamed ls l.name = some l := by
  induction ls with
  | nil => intro l hl; cases hl
  | cons a ls ih =>
    intro l hl
    rw [List.map_cons, List.nodup_cons] at hnd
    obtain ⟨ha, hnd2⟩ := hnd
    rcases List.mem_cons.mp hl with h | h
    · subst h
      have hnone : lastNamed ls l.name = none := by
        refine lastNamed_eq_none ls l.name (fun x hx heq => ha ?_)
        rw [← heq]
        exact List.mem_map_of_mem Layer.name hx
      simp [lastNamed, hnone]
    · have := ih hnd2 l h
      simp [lastNamed, this]

lemma lookupKV_applyOverridesToMap (ovs : List LayerOverride) :
    ∀ (m : List (String × Layer)) (k : String),
      lookupKV (applyOverridesToMap m ovs) k =
        ovs.foldl (fun acc o =>
          if o.layer = k then acc.map (fun bl => applyLayerOverride bl o) else acc)
          (lookupKV m k) := by
  induction ovs with
  | nil => intro m k; simp [applyOverridesToMap]
  | cons o ovs ih =>
    intro m k
    have hstep :
        lookupKV
          (match lookupKV m o.layer with
           | some bl => mapInsert m o.layer (applyLayerOverride bl o)
           | none => m) k =
          (if o.layer = k then (lookupKV m k).map (fun bl => applyLayerOverride bl o)
           else lookupKV m k) := by
      cases hm : lookupKV m o.layer with
      | none =>
        by_cases h : o.layer = k
        · subst h; simp [hm]
        · simp [h]
      | some bl =>
        rw [lookupKV_mapInsert]
        by_cases h : o.layer = k
        · subst h; simp [hm]
        · simp [h]
    have ih2 := ih (match lookupKV m o.layer with
       | some bl => mapInsert m o.layer (applyLayerOverride bl o)
       | none => m) k
    simp only [applyOverridesToMap, List.foldl_cons] at *
    rw [ih2, hstep]

lemma applyUpdateField_name (l : Layer) (kv : String × MetaVal) :
    (applyUpdateField l kv).name = l.name := by
  obtain ⟨k, v⟩ := kv
  unfold applyUpdateField
  split <;> rfl

lemma foldl_applyUpdateField_name (ups : List (String × MetaVal)) :
    ∀ l : Layer, (ups.foldl applyUpdateField l).name = l.name := by
  induction ups with
  | nil => intro l; rfl
  | cons kv ups ih =>
    intro l
    simp only [List.foldl_cons]
    rw [ih, applyUpdateField_name]

lemma applyLayerOverride_name (l : Layer) (o : LayerOverride) :
    (applyLayerOverride l o).name = l.name :=
  foldl_applyUpdateField_name o.updates l

lemma override_fold_some (ovs : List LayerOverride) :
    ∀ (x : Layer) (k : String), x.name = k →
      ovs.foldl (fun acc o =>
        if o.layer = k then acc.map (fun bl => applyLayerOverride bl o) else acc) (some x) =
      some (applyMatchingOverrides ovs x) := by
  induction ovs with
  | nil => intro x k _; rfl
  | cons o ovs ih =>
    intro x k hx
    have hx1 : (o.layer = x.name) ↔ (o.layer = k) := by rw [hx]
    simp only [applyMatchingOverrides, List.foldl_cons] at *
    by_cases h : o.layer = k
    · have hbn : o.layer = x.name := hx1.mpr h
      rw [if_pos h, if_pos hbn]
      simp only [Option.map]
      have hx2 : (applyLayerOverride x o).name = k := by
        rw [applyLayerOverride_name]; exact hx
      exact ih (applyLayerOverride x o) k hx2
    · have hbn : ¬ o.layer = x.name := fun hh => h (hx1.mp hh)
      rw [if_neg h, if_neg hbn]
      exact ih x k hx

lemma foldl_collect_map (M : List (String × Layer)) (f : Layer → Layer) (ls : List Layer) :
    ∀ acc : List Layer, (∀ l ∈ ls, lookupKV M l.name = some (f l)) →
      ls.foldl (fun acc l =>
        match lookupKV M l.name with
        | some ml => acc ++ [ml]
        | none => acc) acc = acc ++ ls.map f := by
  induction ls with
  | nil => intro acc _; simp
  | cons l ls ih =>
    intro acc h
    have hl := h l (List.mem_cons_self l ls)
    simp only [List.foldl_cons, hl]
    rw [ih (acc ++ [f l]) (fun x hx => h x (List.mem_cons_of_mem l hx))]
    simp

/-- Claim C1 as stated is false when the base template repeats a layer name:
both occurrences of the duplicate are emitted as the last base layer of that
name, not as the respective original layers with overrides applied. -/
theorem c1_counterexample :
    (mergeTemplates baseDupTemplate extEmptyTemplate).layers ≠
      baseDupTemplate.layers.map (applyMatchingOverrides extEmptyTemplate.overrides)
        ++ extEmptyTemplate.layers.filter
            (fun l => !((baseDupTemplate.layers.map Layer.name).contains l.name))
        ++ extEmptyTemplate.addLayers := by decide

/-- Claim C1 as amended: whenever the base template layer names are pairwise
distinct, the merge keeps the extended dimensions unless the extended width
is zero (then the base dimensions are inherited), and the merged layer list
is the base layers in base order with every name-matching override applied,
then the extended layers whose names do not occur among the base layers in
extended order, then the additional layers verbatim. -/
theorem c1_merge_templates_amended (base extended : Template)
    (hnd : (base.layers.map Layer.name).Nodup) :
    (mergeTemplates base extended).dimensions =
      (if extended.dimensions.width = 0 then base.dimensions else extended.dimensions) ∧
    (mergeTemplates base extended).layers =
      base.layers.map (applyMatchingOverrides extended.overrides)
        ++ extended.layers.filter
            (fun l => !((base.layers.map Layer.name).contains l.name))
        ++ extended.addLayers := by
  constructor
  · rfl
  · simp only [mergeTemplates]
    have hmem : ∀ l ∈ base.layers,
        lookupKV (applyOverridesToMap (buildBaseLayerMap base.layers) extended.overrides) l.name =
          some (applyMatchingOverrides extended.overrides l) := by
      intro l hl
      rw [lookupKV_applyOverridesToMap]
      have hbuild :
          lookupKV (buildBaseLayerMap base.layers) l.name = some l := by
        unfold buildBaseLayerMap
        rw [lookupKV_buildBaseLayerMap_fold]
        rw [lastNamed_of_nodup base.layers hnd l hl]
      rw [hbuild]
      exact override_fold_some extended.overrides l l.name rfl
    rw [foldl_collect_map _ _ _ [] hmem]
    simp

/-- Witness for the amended claim C1 on a concrete base and extension with an
override, a colliding layer, a fresh layer and an additional layer. -/
theorem c1_merge_templates_witness :
    ((baseWTemplate.layers.map Layer.name).Nodup) ∧
    ((mergeTemplates baseWTemplate extWTemplate).dimensions =
      (if extWTemplate.dimensions.width = 0 then baseWTemplate.dimensions
       else extWTemplate.dimensions) ∧
     (mergeTemplates baseWTemplate extWTemplate).layers =
      baseWTemplate.layers.map (applyMatchingOverrides extWTemplate.overrides)
        ++ extWTemplate.layers.filter
            (fun l => !((baseWTemplate.layers.map Layer.name).contains l.name))
        ++ extWTemplate.addLayers) :=
  ⟨by decide, c1_merge_templates_amended baseWTemplate extWTemplate (by decide)⟩

lemma hasField_eq_amended (card : Card) (f : String) :
    hasField card f = fieldResolvesAmended card f := by
  by_cases h1 : f = "card.tcg"
  · subst h1; rfl
  by_cases h2 : f = "card.cardstyle"
  · subst h2; rfl
  by_cases h3 : f = "card.title"
  · subst h3; rfl
  by_cases h4 : f = "card.type"
  · subst h4; rfl
  by_cases h5 : f = "card.rarity"
  · subst h5; rfl
  by_cases h6 : f = "card.set"
  · subst h6; rfl
  by_cases h7 : f = "card.artist"
  · subst h7; rfl
  have htf : typedFieldGet f = none := by
    unfold typedFieldGet
    split <;> simp_all
  have hhf : hasField card f =
      (if (lookupKV card.metadata f).isSome then true
       else
        match splitOnGo ['.'] f.data with
        | [sect, fld] => hasNestedField card (mkS sect) (mkS fld)
        | _ => false) := by
    unfold hasField
    split <;> simp_all
  rw [hhf]
  unfold fieldResolvesAmended twoSegNested
  rw [htf]
  cases hx : (lookupKV card.metadata f).isSome <;> simp [hx]

lemma checkRequiredFields_ok_iff (card : Card) (fs : List String) :
    checkRequiredFields card fs = Except.ok () ↔ ∀ f ∈ fs, hasField card f = true := by
  induction fs with
  | nil => simp [checkRequiredFields]
  | cons f fs ih =>
    by_cases h : hasField card f = true
    · simp [checkRequiredFields, h, ih]
    · simp [checkRequiredFields, h]

lemma checkRequiredFields_error (card : Card) (fs : List String) (e : String)
    (h : checkRequiredFields card fs = Except.error e) :
    ∃ f ∈ fs, hasField card f = false ∧ e = missingFieldMsg f := by
  induction fs with
  | nil => simp [checkRequiredFields] at h
  | cons f fs ih =>
    by_cases hf : hasField card f = true
    · rw [checkRequiredFields, if_pos hf] at h
      obtain ⟨g, hg, hgf, hge⟩ := ih h
      exact ⟨g, List.mem_cons_of_mem f hg, hgf, hge⟩
    · rw [checkRequiredFields, if_neg hf] at h
      refine ⟨f, List.mem_cons_self f fs, by simpa using hf, ?_⟩
      exact (Except.error.injEq _ _).mp h.symm

/-- Claim C8 as stated is false: a required path held in the flat metadata
bag with an EMPTY value still validates, because the flat lookup checks key
existence only; the original claim demands a non-empty value. -/
theorem c8_counterexample :
    validateCard cardCE templateCE = Except.ok () ∧
    fieldResolvesOriginal cardCE "foo" = false ∧
    templateCE.required = ["foo"] ∧ cardCE.tcg = templateCE.tcg := by
  refine ⟨rfl, by decide, by decide, by decide⟩

/-- Claim C8 as amended: validation succeeds exactly when the card tcg equals
the template tcg and every required path resolves, where typed fields must be
non-empty (or found non-empty in the nested bag), flat metadata keys need
only exist, and dotted two-segment paths need a non-empty nested value; a tcg
mismatch errors with the message naming both values, and a missing field
errors with the message naming the field. -/
theorem c8_validate_card_amended (card : Card) (t : Template) :
    (validateCard card t = Except.ok () ↔
      (card.tcg = t.tcg ∧ ∀ f ∈ t.required, fieldResolvesAmended card f = true)) ∧
    (card.tcg ≠ t.tcg →
      validateCard card t = Except.error (tcgMismatchMsg card.tcg t.tcg)) ∧
    (∀ e, validateCard card t = Except.error e → card.tcg = t.tcg →
      ∃ f ∈ t.required, fieldResolvesAmended card f = false ∧ e = missingFieldMsg f) := by
  by_cases htcg : card.tcg = t.tcg
  · have hgate : ¬ card.tcg ≠ t.tcg := fun h => h htcg
    have hcond : ¬ (t.required.contains "card.tcg" = true ∧ card.tcg ≠ t.tcg) :=
      fun hc => hc.2 htcg
    refine ⟨?_, fun h => absurd htcg h, ?_⟩
    · rw [validateCard, if_neg hgate]
      cases hcr : checkRequiredFields card t.required with
      | ok u =>
        obtain rfl : u = () := rfl
        have hforall := (checkRequiredFields_ok_iff card t.required).mp hcr
        rw [if_neg hcond]
        constructor
        · intro _
          exact ⟨htcg, fun f hf => by rw [← hasField_eq_amended]; exact hforall f hf⟩
        · intro _; rfl
      | error e =>
        constructor
        · intro hcon; exact Except.noConfusion hcon
        · intro hc
          have hok : checkRequiredFields card t.required = Except.ok () := by
            rw [checkRequiredFields_ok_iff]
            intro f hf
            rw [hasField_eq_amended]
            exact hc.2 f hf
          rw [hok] at hcr
          exact Except.noConfusion hcr
    · intro e he _
      rw [validateCard, if_neg hgate] at he
      cases hcr : checkRequiredFields card t.required with
      | ok u =>
        obtain rfl : u = () := rfl
        rw [hcr] at he
        rw [if_neg hcond] at he
        exact Except.noConfusion he
      | error e2 =>
        rw [hcr] at he
        injection he with he2
        subst he2
        obtain ⟨f, hf, hff, hfe⟩ := checkRequiredFields_error card t.required e2 hcr
        exact ⟨f, hf, by rw [← hasField_eq_amended]; exact hff, hfe⟩
  · have hgate : card.tcg ≠ t.tcg := htcg
    have hv : validateCard card t = Except.error (tcgMismatchMsg card.tcg t.tcg) := by
      rw [validateCard, if_pos hgate]
    refine ⟨?_, fun _ => hv, ?_⟩
    · rw [hv]
      constructor
      · intro hcon; exact Except.noConfusion hcon
      · intro hc; exact absurd hc.1 htcg
    · intro e _ hcon; exact absurd hcon htcg

/-- Witness for the amended claim C8: a tcg mismatch yields the documented
error naming both tcg values. -/
theorem c8_validate_card_witness :
    cardW8.tcg ≠ templateW8.tcg ∧
    validateCard cardW8 templateW8 = Except.error (tcgMismatchMsg cardW8.tcg templateW8.tcg) :=
  ⟨by decide, (c8_validate_card_amended cardW8 templateW8).2.1 (by decide)⟩

lemma renderLayersAux_ok (files : String → Option Nat) (t : Template) (vars : NS)
    (ls : List Layer) :
    ∀ acc : List DrawEvent, (∀ l ∈ ls, isOkE (renderLayer files t l vars) = true) →
      renderLayersAux files t vars ls acc =
        Except.ok (acc ++ (ls.map (layerEvents files t vars)).flatten) := by
  induction ls with
  | nil => intro acc _; simp [renderLayersAux]
  | cons l ls ih =>
    intro acc h
    have hl := h l (List.mem_cons_self l ls)
    cases hr : renderLayer files t l vars with
    | error e => rw [hr] at hl; simp [isOkE] at hl
    | ok evs =>
      simp only [renderLayersAux, hr]
      rw [ih (acc ++ evs) (fun x hx => h x (List.mem_cons_of_mem l hx))]
      simp [layerEvents, hr]

lemma renderLayersAux_append (files : String → Option Nat) (t : Template) (vars : NS)
    (xs ys : List Layer) :
    ∀ acc : List DrawEvent,
      renderLayersAux files t vars (xs ++ ys) acc =
        (match renderLayersAux files t vars xs acc with
         | Except.ok acc2 => renderLayersAux files t vars ys acc2
         | Except.error e => Except.error e) := by
  induction xs with
  | nil => intro acc; simp [renderLayersAux]
  | cons l xs ih =>
    intro acc
    cases hr : renderLayer files t l vars with
    | error e => simp [renderLayersAux, hr]
    | ok evs => simp [renderLayersAux, hr, ih]

lemma renderLayer_missing_asset (files : String → Option Nat) (t : Template) (l : Layer)
    (vars : NS) (hcond : l.condition = "") (htype : l.type = "image")
    (hsrc : substituteVariables l.source vars ≠ "")
    (hmiss : files (substituteVariables l.source vars) = none)
    (hfb : l.fallback = "") :
    renderLayer files t l vars =
      Except.ok [DrawEvent.placeholder l.region
        ("Missing: " ++ baseName (substituteVariables l.source vars))] := by
  simp [renderLayer, renderImageLayer, hcond, htype, hsrc, hmiss, hfb]

/-- Claim C9: an image layer whose substituted source path fails to load and
that declares no fallback contributes exactly one placeholder rectangle at
its region; the remaining layers still render and the whole-card render
succeeds - the asset failure never becomes a card-level error. -/
theorem c9_missing_asset (files : String → Option Nat) (vars : NS) (t : Template)
    (pre post : List Layer) (bad : Layer)
    (hl : t.layers = pre ++ bad :: post)
    (hcond : bad.condition = "") (htype : bad.type = "image")
    (hsrc : substituteVariables bad.source vars ≠ "")
    (hmiss : files (substituteVariables bad.source vars) = none)
    (hfb : bad.fallback = "")
    (hpre : ∀ l ∈ pre, isOkE (renderLayer files t l vars) = true)
    (hpost : ∀ l ∈ post, isOkE (renderLayer files t l vars) = true) :
    renderCard files t vars =
      Except.ok (DrawEvent.clearWhite ::
        ((pre.map (layerEvents files t vars)).flatten
          ++ DrawEvent.placeholder bad.region
              ("Missing: " ++ baseName (substituteVariables bad.source vars))
            :: (post.map (layerEvents files t vars)).flatten)) := by
  have hbad := renderLayer_missing_asset files t bad vars hcond htype hsrc hmiss hfb
  rw [renderCard, hl, renderLayersAux_append,
    renderLayersAux_ok files t vars pre [DrawEvent.clearWhite] hpre]
  simp only [renderLayersAux, hbad]
  rw [renderLayersAux_ok files t vars post _ hpost]
  simp

/-- Witness for claim C9 on a one-layer template whose image layer cannot
load: the render succeeds with the white clear and the single placeholder. -/
theorem c9_missing_asset_witness :
    renderCard noFiles templateW9 [] =
      Except.ok [DrawEvent.clearWhite,
        DrawEvent.placeholder ⟨10, 20, 30, 40⟩ "Missing: art.png"] := by
  have h := c9_missing_asset noFiles [] templateW9 [] [] badLayerW rfl rfl rfl
    (by decide) rfl rfl (by intro l hl; cases hl) (by intro l hl; cases hl)
  simpa [badLayerW] using h

/-- Claim C10: the tier search returns the first accepted candidate in
priority order - a failed higher-priority load is silently skipped, the
user-root tier additionally requires a matching declared tcg, and only when
every tier fails does the (builtin) failure surface as the result. -/
theorem c10_search_first_success (load : String → Except String Template)
    (loadBuiltin : String → String → Except String Template)
    (ccd ctd tcg cardstyle : String) :
    findAndLoadTemplate load loadBuiltin ccd ctd tcg cardstyle =
      (match firstSomeL (tierCandidates load loadBuiltin ccd ctd tcg cardstyle) with
       | some t => Except.ok t
       | none => loadBuiltin tcg cardstyle) := by
  unfold findAndLoadTemplate tierCandidates
  cases hw : load (workspacePath tcg cardstyle) with
  | ok t => simp [firstSomeL, okValue]
  | error e =>
    by_cases hc : ccd = ""
    · by_cases hd : ctd = ""
      · cases hb : loadBuiltin tcg cardstyle <;>
          simp [hc, hd, hb, firstSomeL, okValue]
      · cases hlg : load (legacyPath ctd tcg cardstyle) with
        | ok t => simp [hc, hd, hlg, firstSomeL, okValue]
        | error e2 =>
          cases hb : loadBuiltin tcg cardstyle <;>
            simp [hc, hd, hlg, hb, firstSomeL, okValue]
    · cases hu : load (userTcgPath ccd tcg cardstyle) with
      | ok t => simp [hc, hu, firstSomeL, okValue]
      | error e2 =>
        cases hr : load (userRootPath ccd cardstyle) with
        | ok t2 =>
          by_cases ht : t2.tcg = tcg
          · simp [hc, hu, hr, ht, firstSomeL, okValue]
          · by_cases hd : ctd = ""
            · cases hb : loadBuiltin tcg cardstyle <;>
                simp [hc, hu, hd, hr, ht, hb, firstSomeL, okValue]
            · cases hlg : load (legacyPath ctd tcg cardstyle) with
              | ok t3 => simp [hc, hu, hd, hr, ht, hlg, firstSomeL, okValue]
              | error e3 =>
                cases hb : loadBuiltin tcg cardstyle <;>
                  simp [hc, hu, hd, hr, ht, hlg, hb, firstSomeL, okValue]
        | error e3 =>
          by_cases hd : ctd = ""
          · cases hb : loadBuiltin tcg cardstyle <;>
              simp [hc, hu, hd, hr, hb, firstSomeL, okValue]
          · cases hlg : load (legacyPath ctd tcg cardstyle) with
            | ok t3 => simp [hc, hu, hd, hr, hlg, firstSomeL, okValue]
            | error e4 =>
              cases hb : loadBuiltin tcg cardstyle <;>
                simp [hc, hu, hd, hr, hlg, hb, firstSomeL, okValue]

end Cardgen
